import Mathlib

/-!
Shallow embedding of the `ruuls` rules engine (src/src/ruuls.rs) and
verification of its specification claims.

The engine evaluates a tree of rules (`Checklist`) against a fact map,
producing a mirrored `ChecklistResult` tree carrying a tri-state `Status`
at each node.
-/

namespace Ruuls

/-- `Status` enum from `ruuls.rs` lines 7-12: `Met`, `NotMet`, `Unknown`. -/
inductive Status where
  | Met : Status
  | NotMet : Status
  | Unknown : Status
deriving DecidableEq, Fintype, Repr

/-- `impl BitAnd for Status` (`ruuls.rs` lines 14-24): `(Met, Met) => Met`;
`(NotMet, _) | (_, NotMet) => NotMet`; `(_, _) => Unknown`. -/
def Status.and : Status → Status → Status
  | .Met, .Met => .Met
  | .NotMet, _ => .NotMet
  | _, .NotMet => .NotMet
  | _, _ => .Unknown

/-- `impl BitOr for Status` (`ruuls.rs` lines 26-35): `(NotMet, NotMet) => NotMet`;
`(Met, _) | (_, Met) => Met`; `(_, _) => Unknown`. -/
def Status.or : Status → Status → Status
  | .NotMet, .NotMet => .NotMet
  | .Met, _ => .Met
  | _, .Met => .Met
  | _, _ => .Unknown

/-- `Constraint` enum from `ruuls.rs` lines 128-133. The integer payloads are
Rust `i32` values; they are embedded as `Int`, with the 32-bit range enforced
where the code enforces it, namely in `parseI32` below. -/
inductive Constraint where
  | StringEquals : String → Constraint
  | IntEquals : Int → Constraint
  | IntRange : Int → Int → Constraint
  | Boolean : Bool → Constraint
deriving DecidableEq, Repr

/-- Largest `i32` value, `2^31 - 1`. -/
def i32Max : Int := 2147483647

/-- Smallest `i32` value, `-2^31`. -/
def i32Min : Int := -2147483648

/-- Accumulate a run of ASCII decimal digits into a natural number
(most significant digit first); `none` if any character is not a digit. -/
def digitsToNat (acc : Nat) : List Char → Option Nat
  | [] => some acc
  | c :: cs =>
      if c.isDigit then digitsToNat (acc * 10 + (c.toNat - '0'.toNat)) cs
      else none

/-- Digits-only (sign already stripped) half of `i32` parsing, non-negative
branch. An empty digit run is an error, as is a value above `i32Max`. -/
def parseI32Pos (l : List Char) : Option Int :=
  if l.isEmpty then none
  else
    match digitsToNat 0 l with
    | none => none
    | some n => if (n : Int) ≤ i32Max then some (n : Int) else none

/-- Digits-only half of `i32` parsing after a leading `'-'`: the magnitude may
reach `2^31` (so that `"-2147483648"` parses). -/
def parseI32Neg (l : List Char) : Option Int :=
  if l.isEmpty then none
  else
    match digitsToNat 0 l with
    | none => none
    | some n => if i32Min ≤ -(n : Int) then some (-(n : Int)) else none

/-- Model of Rust `str::parse::<i32>()` as used in `Constraint::check`
(`ruuls.rs` lines 146, 158): optional leading `'+'` or `'-'`, then one or more
ASCII decimal digits, value within `[-2^31, 2^31-1]`; anything else fails.
Rust rejects on the first intermediate overflow; since the accumulated
magnitude is monotone, that is equivalent to the final bound check used here. -/
def parseI32 (s : String) : Option Int :=
  match s.toList with
  | [] => none
  | '+' :: rest => parseI32Pos rest
  | '-' :: rest => parseI32Neg rest
  | l => parseI32Pos l

/-- Model of `val.to_lowercase()` (`ruuls.rs` line 170). Rust performs full
Unicode lowercasing; for the sole use here — equality against the ASCII
literal `"true"` — it coincides with per-character ASCII lowercasing, since no
character outside `{T, R, U, E}` lower-maps to any of `t`, `r`, `u`, `e`. -/
def rustToLowercase (s : String) : String := ⟨s.toList.map Char.toLower⟩

/-- `Constraint::check` (`ruuls.rs` lines 136-178). -/
def Constraint.check (c : Constraint) (val : String) : Status :=
  match c with
  | .StringEquals s => if val = s then .Met else .NotMet
  | .IntEquals i =>
      match parseI32 val with
      | some v => if v = i then .Met else .NotMet
      | none => .NotMet
  | .IntRange start stop =>
      match parseI32 val with
      | some v => if start ≤ v ∧ v ≤ stop then .Met else .NotMet
      | none => .NotMet
  | .Boolean b =>
      let boolVal : Bool := rustToLowercase val == "true"
      if boolVal = b then .Met else .NotMet

/-- The fact map `info : &BTreeMap<String, String>`: the evaluator only does
point lookups by field name, so it is embedded as a key-to-value lookup. -/
def Facts : Type := String → Option String

/-- `Checklist` enum from `ruuls.rs` lines 41-47. -/
inductive Checklist where
  | And : List Checklist → Checklist
  | Or : List Checklist → Checklist
  | NumberOf : Nat → List Checklist → Checklist
  | Rule : String → String → Constraint → Checklist
deriving Repr

/-- `ChecklistResult` struct from `ruuls.rs` lines 184-189. -/
inductive ChecklistResult where
  | mk : String → Status → List ChecklistResult → ChecklistResult
deriving Repr

/-- The `name` field of a `ChecklistResult`. -/
def ChecklistResult.name : ChecklistResult → String
  | .mk n _ _ => n

/-- The `status` field of a `ChecklistResult`. -/
def ChecklistResult.status : ChecklistResult → Status
  | .mk _ s _ => s

/-- The `children` field of a `ChecklistResult`. -/
def ChecklistResult.children : ChecklistResult → List ChecklistResult
  | .mk _ _ c => c

mutual

/-- `Checklist::check` (`ruuls.rs` lines 50-117). The Rust code maps `check`
over the children while accumulating (via `inspect`) a running status — a left
fold in child order; `NumberOf` instead counts `Met` and `NotMet` children and
compares both counts against the bare threshold `count` (lines 89-95). -/
def Checklist.check : Checklist → Facts → ChecklistResult
  | .And checklists, info =>
      let children := checkAll checklists info
      .mk "And" (children.foldl (fun s r => s.and r.status) .Met) children
  | .Or checklists, info =>
      let children := checkAll checklists info
      .mk "Or" (children.foldl (fun s r => s.or r.status) .NotMet) children
  | .NumberOf count checklists, info =>
      let children := checkAll checklists info
      let metCount := children.countP (fun r => r.status == Status.Met)
      let failedCount := children.countP (fun r => r.status == Status.NotMet)
      let status :=
        if metCount ≥ count then Status.Met
        else if failedCount ≥ count then Status.NotMet
        else Status.Unknown
      .mk ("At least " ++ toString count ++ " of") status children
  | .Rule name field constraint, info =>
      let status :=
        match info field with
        | some s => constraint.check s
        | none => Status.Unknown
      .mk name status []

/-- Evaluation of a child list in order: `checklists.iter().map(|c| c.check(info))`. -/
def checkAll : List Checklist → Facts → List ChecklistResult
  | [], _ => []
  | c :: cs, info => c.check info :: checkAll cs info

end

/-- `checkAll` is exactly the in-order map of `check` over the children. -/
theorem checkAll_eq_map (cs : List Checklist) (info : Facts) :
    checkAll cs info = cs.map (fun c => c.check info) := by
  induction cs with
  | nil => rfl
  | cons c cs ih => simp [checkAll, ih]

/-- A constraint evaluation never yields `Unknown`: every branch of
`Constraint::check` returns `Met` or `NotMet`. -/
theorem constraint_check_met_or_notMet (c : Constraint) (v : String) :
    c.check v = Status.Met ∨ c.check v = Status.NotMet := by
  cases c with
  | StringEquals s =>
      simp only [Constraint.check]
      split <;> simp
  | IntEquals i =>
      simp only [Constraint.check]
      cases parseI32 v with
      | none => simp
      | some w => by_cases h : w = i <;> simp [h]
  | IntRange lo hi =>
      simp only [Constraint.check]
      cases parseI32 v with
      | none => simp
      | some w => by_cases h : lo ≤ w ∧ w ≤ hi <;> simp [h]
  | Boolean b =>
      simp only [Constraint.check]
      split <;> simp

/-- The `NumberOf` status formula exactly as the specification states it,
for comparison with the code: `Met` if `met_count >= threshold`, else `NotMet`
if `failed_count >= len(children) - threshold + 1`, else `Unknown`. Stated
with `failedCount + threshold ≥ numChildren + 1`, which is equivalent over the
integers, to avoid truncated natural subtraction. -/
def specNumberOfStatus (threshold metCount failedCount numChildren : Nat) : Status :=
  if metCount ≥ threshold then .Met
  else if failedCount + threshold ≥ numChildren + 1 then .NotMet
  else .Unknown

/-- Facts `{x ↦ "b"}`: field `x` present (and failing a `StringEquals "a"`
constraint), every other field absent. -/
def c1Facts : Facts := fun k => if k = "x" then some "b" else none

/-- `NumberOf(1, [leaf that is NotMet under c1Facts, leaf that is Unknown])`. -/
def c1Checklist : Checklist :=
  .NumberOf 1 [.Rule "r1" "x" (.StringEquals "a"), .Rule "r2" "y" (.StringEquals "a")]

/-- An empty fact map. -/
def noFacts : Facts := fun _ => none

/-- Facts used to exhibit determinism on a concrete evaluation. -/
def c9Facts : Facts := fun k => if k = "x" then some "b" else none

/-- C1: refuted on the code. Under `c1Facts` the two children of
`c1Checklist` evaluate to `NotMet` and `Unknown` (`met_count = 0`,
`failed_count = 1`, `len = 2`). The claim's formula yields `Unknown`
(`1 < 2 - 1 + 1 = 2`), but `Checklist::check` compares `failed_count` against
the bare threshold (`failed_count >= count`, ruuls.rs line 91) and returns
`NotMet` — contradicting the spec and the `n_of` documentation in lib.rs. -/
theorem c1_numberOf_bare_threshold_divergence :
    ((c1Checklist.check c1Facts).children.map ChecklistResult.status =
      [Status.NotMet, Status.Unknown]) ∧
    specNumberOfStatus 1 0 1 2 = Status.Unknown ∧
    (c1Checklist.check c1Facts).status = Status.NotMet := by decide

/-- C2: partially refuted on the code. `NumberOf(0, children)` is always `Met`
(third conjunct), and `NumberOf(0, [])` is `Met`; but `NumberOf(1, [])`
evaluates to `Unknown`, not `NotMet` as the claim states (the spec formula
gives `NotMet`: `failed_count 0 >= 0 - 1 + 1 = 0`), again because the code
uses the bare threshold `failed_count >= count` as the failure cutoff. -/
theorem c2_numberOf_empty_children_divergence :
    ((Checklist.NumberOf 1 []).check noFacts).status = Status.Unknown ∧
    ((Checklist.NumberOf 0 []).check noFacts).status = Status.Met ∧
    (∀ (cs : List Checklist) (info : Facts),
      ((Checklist.NumberOf 0 cs).check info).status = Status.Met) ∧
    specNumberOfStatus 1 0 0 0 = Status.NotMet := by
  refine ⟨by decide, by decide, fun cs info => ?_, by decide⟩
  simp [Checklist.check, ChecklistResult.status]

/-- C3: a leaf's status is `Unknown` iff its field is absent from the facts;
when the field is present with value `v` the status is `Constraint::check`
applied to `v`, and a constraint evaluation is always `Met` or `NotMet`. -/
theorem c3_leaf_unknown_iff_field_absent :
    ∀ (d f : String) (c : Constraint) (info : Facts),
      (((Checklist.Rule d f c).check info).status = Status.Unknown ↔ info f = none) ∧
      (((Checklist.Rule d f c).check info).status =
        match info f with
        | some v => c.check v
        | none => Status.Unknown) ∧
      (∀ v : String, c.check v = Status.Met ∨ c.check v = Status.NotMet) := by
  intro d f c info
  refine ⟨?_, ?_, fun v => constraint_check_met_or_notMet c v⟩
  · cases hf : info f with
    | none => simp [Checklist.check, ChecklistResult.status, hf]
    | some v =>
        simp only [Checklist.check, ChecklistResult.status, hf]
        rcases constraint_check_met_or_notMet c v with h | h <;> simp [h]
  · cases hf : info f <;> simp [Checklist.check, ChecklistResult.status, hf]

/-- C4: the full AND and OR truth tables over all 9 pairs: `Met AND Met = Met`,
any `NotMet` operand forces `NotMet`, otherwise `Unknown`; dually
`NotMet OR NotMet = NotMet`, any `Met` operand forces `Met`, otherwise
`Unknown`. -/
theorem c4_status_truth_tables :
    ∀ a b : Status,
      (Status.and a b = .Met ↔ (a = .Met ∧ b = .Met)) ∧
      (Status.and a b = .NotMet ↔ (a = .NotMet ∨ b = .NotMet)) ∧
      (Status.and a b = .Unknown ↔
        (a ≠ .NotMet ∧ b ≠ .NotMet ∧ (a = .Unknown ∨ b = .Unknown))) ∧
      (Status.or a b = .NotMet ↔ (a = .NotMet ∧ b = .NotMet)) ∧
      (Status.or a b = .Met ↔ (a = .Met ∨ b = .Met)) ∧
      (Status.or a b = .Unknown ↔
        (a ≠ .Met ∧ b ≠ .Met ∧ (a = .Unknown ∨ b = .Unknown))) := by decide

/-- C5: `IntEquals` and `IntRange` return `NotMet` on parse failure, and on a
successful parse to `v` return `Met` exactly when `v = expected`, respectively
`low ≤ v ≤ high` with both bounds inclusive. -/
theorem c5_int_constraints (e lo hi : Int) (s : String) (v : Int) :
    (parseI32 s = none →
      Constraint.check (.IntEquals e) s = Status.NotMet ∧
      Constraint.check (.IntRange lo hi) s = Status.NotMet) ∧
    (parseI32 s = some v →
      (Constraint.check (.IntEquals e) s = Status.Met ↔ v = e) ∧
      (Constraint.check (.IntRange lo hi) s = Status.Met ↔ (lo ≤ v ∧ v ≤ hi))) := by
  constructor
  · intro h
    simp [Constraint.check, h]
  · intro h
    constructor
    · by_cases hv : v = e <;> simp [Constraint.check, h, hv]
    · by_cases hv : lo ≤ v ∧ v ≤ hi <;> simp [Constraint.check, h, hv]

/-- Witness for C5 at concrete inputs: `"abc"` fails to parse, `"4"` parses
into the range `[0, 5]`. -/
theorem c5_int_constraints_witness :
    Constraint.check (.IntEquals 3) "abc" = Status.NotMet ∧
    Constraint.check (.IntRange 0 5) "4" = Status.Met :=
  ⟨((c5_int_constraints 3 0 5 "abc" 0).1 (by decide)).1,
   ((c5_int_constraints 3 0 5 "4" 4).2 (by decide)).2.mpr (by decide)⟩

/-- C6: the `Boolean(expected)` constraint derives a boolean by lowercasing
the raw value and comparing with the literal `"true"`, and is `Met` exactly
when that boolean equals `expected`; `"false"`, `"1"` and `""` derive `false`
while `"TrUe"` derives `true`. -/
theorem c6_boolean_constraint :
    (∀ (b : Bool) (v : String),
      Constraint.check (.Boolean b) v =
        if (rustToLowercase v == "true") = b then Status.Met else Status.NotMet) ∧
    (∀ (b : Bool) (v : String),
      (Constraint.check (.Boolean b) v = Status.Met ↔
        (rustToLowercase v == "true") = b)) ∧
    (rustToLowercase "false" == "true") = false ∧
    (rustToLowercase "1" == "true") = false ∧
    (rustToLowercase "" == "true") = false ∧
    (rustToLowercase "TrUe" == "true") = true := by
  refine ⟨fun b v => rfl, fun b v => ?_, by decide, by decide, by decide, by decide⟩
  by_cases h : (rustToLowercase v == "true") = b <;> simp [Constraint.check, h]

/-- C7: AND and OR on `Status` are commutative and associative, `Met` is a
two-sided identity for AND, and `NotMet` is a two-sided identity for OR. -/
theorem c7_status_algebra :
    ∀ a b c : Status,
      Status.and a b = Status.and b a ∧
      Status.and (Status.and a b) c = Status.and a (Status.and b c) ∧
      Status.or a b = Status.or b a ∧
      Status.or (Status.or a b) c = Status.or a (Status.or b c) ∧
      Status.and .Met a = a ∧ Status.and a .Met = a ∧
      Status.or .NotMet a = a ∧ Status.or a .NotMet = a := by decide

/-- C8: every combinator evaluates every child in order — its result's
children are exactly the in-order map of `check` over the rule's children (so
one result per child, same order, no short-circuiting) — and the result's name
is `"And"`, `"Or"`, `"At least {threshold} of"`, or the leaf's description. -/
theorem c8_result_shape :
    ∀ (info : Facts),
      (∀ cs : List Checklist,
        ((Checklist.And cs).check info).name = "And" ∧
        ((Checklist.And cs).check info).children = cs.map (fun c => c.check info)) ∧
      (∀ cs : List Checklist,
        ((Checklist.Or cs).check info).name = "Or" ∧
        ((Checklist.Or cs).check info).children = cs.map (fun c => c.check info)) ∧
      (∀ (n : Nat) (cs : List Checklist),
        ((Checklist.NumberOf n cs).check info).name =
          "At least " ++ toString n ++ " of" ∧
        ((Checklist.NumberOf n cs).check info).children =
          cs.map (fun c => c.check info)) ∧
      (∀ (d f : String) (c : Constraint),
        ((Checklist.Rule d f c).check info).name = d ∧
        ((Checklist.Rule d f c).check info).children = []) := by
  intro info
  refine ⟨fun cs => ⟨?_, ?_⟩, fun cs => ⟨?_, ?_⟩, fun n cs => ⟨?_, ?_⟩,
    fun d f c => ⟨?_, ?_⟩⟩ <;>
    simp [Checklist.check, ChecklistResult.name, ChecklistResult.children,
      checkAll_eq_map]

/-- C9: `check` is a deterministic function of the rule tree and the facts —
two invocations on the same tree and equal fact maps produce structurally
identical result trees. -/
theorem c9_check_deterministic (r : Checklist) (f1 f2 : Facts) (h : f1 = f2) :
    r.check f1 = r.check f2 := by rw [h]

/-- Witness for C9 at a concrete rule and fact map. -/
theorem c9_check_deterministic_witness :
    (Checklist.Rule "d" "x" (.StringEquals "b")).check c9Facts =
      (Checklist.Rule "d" "x" (.StringEquals "b")).check c9Facts :=
  c9_check_deterministic (Checklist.Rule "d" "x" (.StringEquals "b")) c9Facts c9Facts rfl

/-- C10: integer parsing is 32-bit: `"2147483648" = 2^31` is outside the
`i32` range, fails to parse, and so `IntEquals`/`IntRange` yield `NotMet` on
it for every expected value and every range, while the boundary values
`2147483647` and `-2147483648` do parse. -/
theorem c10_parse_is_32bit :
    (∀ e : Int, Constraint.check (.IntEquals e) "2147483648" = Status.NotMet) ∧
    (∀ lo hi : Int, Constraint.check (.IntRange lo hi) "2147483648" = Status.NotMet) ∧
    parseI32 "2147483648" = none ∧
    parseI32 "2147483647" = some 2147483647 ∧
    parseI32 "-2147483649" = none ∧
    parseI32 "-2147483648" = some (-2147483648) := by
  have hp : parseI32 "2147483648" = none := by decide
  exact ⟨fun e => by simp [Constraint.check, hp],
    fun lo hi => by simp [Constraint.check, hp],
    hp, by decide, by decide, by decide⟩

end Ruuls
